import Mathlib

/-!
Verification of the intrusion-detection feature-extraction pipeline.

Shallow embedding of `flask-api/app/utils/feature_extraction.py`,
`flask-api/app/routes/prediction_routes.py` and `flask-api/config.py`.

Modelling conventions:
* A timestamp is a rational number of microseconds.  `datetime` subtraction
  followed by `total_seconds() * 1000000` is exact on this representation,
  so the scale factor is absorbed into the representation.
* A possibly-missing JSON key is an `Option`.  The `timestamp` field is an
  `Option (Option ℚ)`: `none` means the key is absent (Python `KeyError`),
  `some none` means the key is present but `datetime.fromisoformat` raises
  `ValueError`, and `some (some t)` means it parses to time point `t`.
* Python's in-place `list.sort()` is modelled two ways: the value-level
  `calculate_time_diff` (the returned differences) and the state-passing
  `calculate_time_diff_st`, which also returns the list as the caller sees
  it after the call.
* `numpy` reducers are embedded exactly: `np.mean` is sum over length,
  `np.std` is the population standard deviation (divide by `N`, `ddof = 0`),
  `np.sum` is the list sum, and Python `max`/`min` on a non-empty list are
  folds of the lattice operations.
-/

namespace IDS

-- Settings from `config.py` (class `Config`).
namespace Config

/-- `IDLE_THRESHOLD = 500000`, microseconds to consider a gap as idle. -/
def IDLE_THRESHOLD : ℚ := 500000

/-- `PREDICTION_THRESHOLD = 0.05`, probability threshold to classify as attack. -/
def PREDICTION_THRESHOLD : ℚ := 5 / 100

end Config

/-- Consecutive differences `l[i] - l[i-1]` of a list, the loop body of
`calculate_time_diff`. -/
def diffs : List ℚ → List ℚ
  | a :: b :: rest => (b - a) :: diffs (b :: rest)
  | _ => []

/-- Python `list.sort()` result: the list sorted ascending. -/
def sortQ (l : List ℚ) : List ℚ := l.insertionSort (fun a b => a ≤ b)

/-- Python `max` over a non-empty list (`0` stands in for the unreachable
empty case, which the callers guard against). -/
def listMax : List ℚ → ℚ
  | [] => 0
  | a :: rest => rest.foldl max a

/-- Python `min` over a non-empty list (`0` stands in for the unreachable
empty case, which the callers guard against). -/
def listMin : List ℚ → ℚ
  | [] => 0
  | a :: rest => rest.foldl min a

/-- `np.mean`: sum divided by length. -/
def npMean (l : List ℚ) : ℚ := l.sum / (l.length : ℚ)

/-- The population variance computed inside `np.std`: mean of the squared
deviations from the mean (division by `N`, numpy default `ddof = 0`). -/
def npVar (l : List ℚ) : ℚ := (l.map (fun x => (x - npMean l) ^ 2)).sum / (l.length : ℚ)

/-- `np.std`: square root of the population variance. -/
noncomputable def npStd (l : List ℚ) : ℝ := Real.sqrt ((npVar l : ℚ) : ℝ)

/-- `calculate_time_diff`, value level: inter-arrival times between
consecutive timestamps of the sorted list; empty for lists of length `≤ 1`. -/
def calculate_time_diff (time_list : List ℚ) : List ℚ :=
  if time_list.length ≤ 1 then [] else diffs (sortQ time_list)

/-- `calculate_time_diff`, state-passing form: first component is the input
list as the caller sees it after the call (the in-place `time_list.sort()`
happens only after the early return for length `≤ 1`), second component is
the returned list of differences. -/
def calculate_time_diff_st (time_list : List ℚ) : List ℚ × List ℚ :=
  if time_list.length ≤ 1 then (time_list, [])
  else (sortQ time_list, diffs (sortQ time_list))

/-- `calculate_idle_times`: the inter-arrival times strictly above the
threshold (`diff > threshold`). -/
def calculate_idle_times (time_list : List ℚ)
    (threshold : ℚ := Config.IDLE_THRESHOLD) : List ℚ :=
  (calculate_time_diff time_list).filter (fun diff => threshold < diff)

/-- `extract_fwd_iat_std`: 0 when fewer than 2 inter-arrival values,
otherwise `np.std` of them. -/
noncomputable def extract_fwd_iat_std (forward_packet_times : List ℚ) : ℝ :=
  let fwd_iats := calculate_time_diff forward_packet_times
  if fwd_iats.length < 2 then 0 else npStd fwd_iats

/-- `extract_bwd_iat_std`. -/
noncomputable def extract_bwd_iat_std (backward_packet_times : List ℚ) : ℝ :=
  let bwd_iats := calculate_time_diff backward_packet_times
  if bwd_iats.length < 2 then 0 else npStd bwd_iats

/-- `extract_flow_iat_std`. -/
noncomputable def extract_flow_iat_std (all_packet_times : List ℚ) : ℝ :=
  let flow_iats := calculate_time_diff all_packet_times
  if flow_iats.length < 2 then 0 else npStd flow_iats

/-- `extract_fwd_iat_max`. -/
def extract_fwd_iat_max (forward_packet_times : List ℚ) : ℚ :=
  let fwd_iats := calculate_time_diff forward_packet_times
  if fwd_iats = [] then 0 else listMax fwd_iats

/-- `extract_flow_iat_mean`. -/
def extract_flow_iat_mean (all_packet_times : List ℚ) : ℚ :=
  let flow_iats := calculate_time_diff all_packet_times
  if flow_iats = [] then 0 else npMean flow_iats

/-- `extract_flow_iat_max`. -/
def extract_flow_iat_max (all_packet_times : List ℚ) : ℚ :=
  let flow_iats := calculate_time_diff all_packet_times
  if flow_iats = [] then 0 else listMax flow_iats

/-- `extract_fwd_iat_mean`. -/
def extract_fwd_iat_mean (forward_packet_times : List ℚ) : ℚ :=
  let fwd_iats := calculate_time_diff forward_packet_times
  if fwd_iats = [] then 0 else npMean fwd_iats

/-- `extract_fwd_iat_total`: `np.sum` of the forward inter-arrival times
(`np.sum` of an empty list is 0, and the code also guards that case). -/
def extract_fwd_iat_total (forward_packet_times : List ℚ) : ℚ :=
  let fwd_iats := calculate_time_diff forward_packet_times
  if fwd_iats = [] then 0 else fwd_iats.sum

/-- `extract_flow_duration`: `max - min` of the timestamps. -/
def extract_flow_duration (all_packet_times : List ℚ) : ℚ :=
  if all_packet_times.length < 2 then 0
  else listMax all_packet_times - listMin all_packet_times

/-- `extract_bwd_iat_max`. -/
def extract_bwd_iat_max (backward_packet_times : List ℚ) : ℚ :=
  let bwd_iats := calculate_time_diff backward_packet_times
  if bwd_iats = [] then 0 else listMax bwd_iats

/-- `extract_idle_max`. -/
def extract_idle_max (all_packet_times : List ℚ)
    (threshold : ℚ := Config.IDLE_THRESHOLD) : ℚ :=
  let idle_times := calculate_idle_times all_packet_times threshold
  if idle_times = [] then 0 else listMax idle_times

/-- `extract_idle_mean`. -/
def extract_idle_mean (all_packet_times : List ℚ)
    (threshold : ℚ := Config.IDLE_THRESHOLD) : ℚ :=
  let idle_times := calculate_idle_times all_packet_times threshold
  if idle_times = [] then 0 else npMean idle_times

/-- A raw JSON packet record.  Each field is `none` when the key is absent.
The timestamp value is `some none` when present but not parseable by
`datetime.fromisoformat` and `some (some t)` when it parses to `t`. -/
structure RawPacket where
  timestamp : Option (Option ℚ)
  src_ip : Option String
  dst_ip : Option String
  src_port : Option Int
  dst_port : Option Int
deriving DecidableEq

/-- The packet has a parseable timestamp. -/
def hasTime (p : RawPacket) : Bool :=
  match p.timestamp with
  | some (some _) => true
  | _ => false

/-- The parsed time point of a packet (0 when absent or unparseable; only
used on packets where `hasTime` holds). -/
def pTime (p : RawPacket) : ℚ :=
  match p.timestamp with
  | some (some t) => t
  | _ => 0

/-- The loop body of `parse_packet_data` for one packet: the Python `try`
block appends the parsed timestamp to `all_packet_times` and then classifies
into forward/backward; `KeyError`/`ValueError` abandon the rest of the block
but keep what was already appended.  Accumulator is
`(forward_packet_times, backward_packet_times, all_packet_times)`. -/
def stepPacket (fip : String) (fport : Int)
    (acc : List ℚ × List ℚ × List ℚ) (p : RawPacket) : List ℚ × List ℚ × List ℚ :=
  match p.timestamp with
  | some (some t) =>
    match p.src_ip with
    | none => (acc.1, acc.2.1, acc.2.2 ++ [t])
    | some ip =>
      if ip = fip then
        match p.src_port with
        | none => (acc.1, acc.2.1, acc.2.2 ++ [t])
        | some port =>
          if port = fport then (acc.1 ++ [t], acc.2.1, acc.2.2 ++ [t])
          else (acc.1, acc.2.1 ++ [t], acc.2.2 ++ [t])
      else (acc.1, acc.2.1 ++ [t], acc.2.2 ++ [t])
  | _ => acc

/-- `parse_packet_data`: empty input gives three empty lists; otherwise the
initiator is the `(src_ip, src_port)` of the first submitted packet — read
outside the `try`, so a first packet missing either key raises `KeyError`
(modelled as `Except.error`) — and every packet is folded through the loop
body. -/
def parse_packet_data (packet_data : List RawPacket) :
    Except String (List ℚ × List ℚ × List ℚ) :=
  match packet_data with
  | [] => Except.ok ([], [], [])
  | p0 :: _ =>
    match p0.src_ip, p0.src_port with
    | some fip, some fport =>
        Except.ok (packet_data.foldl (stepPacket fip fport) ([], [], []))
    | _, _ => Except.error "KeyError"

/-- The 12 feature names, in the dictionary-insertion order of
`extract_all_features`, which is also the `expected_cols` order of the
`/predict` route. -/
def featureNames : List String :=
  ["Fwd IAT Std", "Bwd IAT Std", "Flow IAT Std", "Fwd IAT Max",
   "Flow IAT Mean", "Flow IAT Max", "Fwd IAT Mean", "Fwd IAT Total",
   "Flow Duration", "Bwd IAT Max", "Idle Max", "Idle Mean"]

/-- The features dictionary built inside `extract_all_features`, as the
ordered association list the classifier receives. -/
noncomputable def mkFeatures (forward_times backward_times all_times : List ℚ) :
    List (String × ℝ) :=
  [("Fwd IAT Std", extract_fwd_iat_std forward_times),
   ("Bwd IAT Std", extract_bwd_iat_std backward_times),
   ("Flow IAT Std", extract_flow_iat_std all_times),
   ("Fwd IAT Max", (extract_fwd_iat_max forward_times : ℝ)),
   ("Flow IAT Mean", (extract_flow_iat_mean all_times : ℝ)),
   ("Flow IAT Max", (extract_flow_iat_max all_times : ℝ)),
   ("Fwd IAT Mean", (extract_fwd_iat_mean forward_times : ℝ)),
   ("Fwd IAT Total", (extract_fwd_iat_total forward_times : ℝ)),
   ("Flow Duration", (extract_flow_duration all_times : ℝ)),
   ("Bwd IAT Max", (extract_bwd_iat_max backward_times : ℝ)),
   ("Idle Max", (extract_idle_max all_times : ℝ)),
   ("Idle Mean", (extract_idle_mean all_times : ℝ))]

/-- `extract_all_features`: parse the packets into the three timestamp lists
and apply the twelve extractors; an exception from `parse_packet_data`
propagates. -/
noncomputable def extract_all_features (packet_data : List RawPacket) :
    Except String (List (String × ℝ)) :=
  (parse_packet_data packet_data).map
    (fun ftimes => mkFeatures ftimes.1 ftimes.2.1 ftimes.2.2)

/-- A packet on which the direction-classification loop performs no skip:
timestamp parses and both initiator-comparison keys are present. -/
def goodPacket (p : RawPacket) : Bool :=
  hasTime p && p.src_ip.isSome && p.src_port.isSome

/-- The packet is classified forward: parseable timestamp and
`(src_ip, src_port)` equal to the initiator's. -/
def isFwdB (fip : String) (fport : Int) (p : RawPacket) : Bool :=
  hasTime p && decide (p.src_ip = some fip) && decide (p.src_port = some fport)

/-- The packet is classified backward: parseable timestamp and either a
present `src_ip` different from the initiator's (Python's `and`
short-circuits, so `src_port` is not even read), or `src_ip` equal and a
present `src_port` different from the initiator's. -/
def isBwdB (fip : String) (fport : Int) (p : RawPacket) : Bool :=
  hasTime p &&
    match p.src_ip with
    | none => false
    | some ip =>
      if ip = fip then
        match p.src_port with
        | none => false
        | some port => decide (¬ port = fport)
      else true

/-- The required-field names of the `/predict` route. -/
def requiredFields : List String :=
  ["timestamp", "src_ip", "dst_ip", "src_port", "dst_port"]

/-- `[field for field in required_fields if field not in packet]`: the
missing keys of one packet, in `required_fields` order. -/
def missingFields (p : RawPacket) : List String :=
  (if p.timestamp = none then ["timestamp"] else []) ++
  (if p.src_ip = none then ["src_ip"] else []) ++
  (if p.dst_ip = none then ["dst_ip"] else []) ++
  (if p.src_port = none then ["src_port"] else []) ++
  (if p.dst_port = none then ["dst_port"] else [])

/-- Outcome of the `/predict` route: a JSON error with an HTTP status code,
or the success body `{"prediction": ..., "is_attack": ...}`. -/
inductive PredictResult where
  | errorResp (error : String) (code : Nat)
  | ok (prediction : Int) (is_attack : Bool)
deriving DecidableEq

/-- The `/predict` route.  `model_loaded` is the startup flag;
`predict_proba` is the externally loaded classifier, returning the class
probabilities `(p_benign, p_attack)` for a feature row.  Checks run in
source order: model loaded, non-empty body, per-packet required fields
(failing on the first offending packet), then feature extraction and the
strict threshold comparison `probabilities[1] > PREDICTION_THRESHOLD`. -/
noncomputable def predict (model_loaded : Bool)
    (predict_proba : List (String × ℝ) → ℚ × ℚ)
    (packet_data : List RawPacket) : PredictResult :=
  if model_loaded = false then
    PredictResult.errorResp "Model not loaded. Check server logs." 503
  else if packet_data.isEmpty then
    PredictResult.errorResp "Empty packet data" 400
  else
    match packet_data.find? (fun p => !(missingFields p).isEmpty) with
    | some p =>
        PredictResult.errorResp
          ("Missing required fields in packet: " ++
            String.intercalate ", " (missingFields p)) 400
    | none =>
      match extract_all_features packet_data with
      | Except.error e => PredictResult.errorResp ("Server error: " ++ e) 500
      | Except.ok feats =>
        let probabilities := predict_proba feats
        PredictResult.ok
          (if Config.PREDICTION_THRESHOLD < probabilities.2 then 1 else 0)
          (decide (Config.PREDICTION_THRESHOLD < probabilities.2))

/-- Population standard deviation as the specification words it: square
root of the sum of squared deviations from the mean divided by `N`
(not `N - 1`).  Refinement target for the `np.std` embedding. -/
noncomputable def populationStd (l : List ℚ) : ℝ :=
  Real.sqrt ((((l.map (fun x => (x - l.sum / (l.length : ℚ)) ^ 2)).sum /
    (l.length : ℚ) : ℚ) : ℝ))

/-! ### Helper lemmas about sorting -/

theorem sortQ_perm (l : List ℚ) : (sortQ l).Perm l :=
  List.perm_insertionSort _ l

theorem sortQ_sorted (l : List ℚ) : (sortQ l).Sorted (fun a b : ℚ => a ≤ b) :=
  List.sorted_insertionSort _ l

theorem sortQ_eq_of_perm {l l' : List ℚ} (h : l.Perm l') : sortQ l = sortQ l' :=
  List.eq_of_perm_of_sorted ((sortQ_perm l).trans (h.trans (sortQ_perm l').symm))
    (sortQ_sorted l) (sortQ_sorted l')

theorem sortQ_eq_self {l : List ℚ} (h : l.Sorted (fun a b : ℚ => a ≤ b)) :
    sortQ l = l :=
  List.Sorted.insertionSort_eq h

theorem calculate_time_diff_perm {l l' : List ℚ} (h : l.Perm l') :
    calculate_time_diff l = calculate_time_diff l' := by
  unfold calculate_time_diff
  rw [h.length_eq, sortQ_eq_of_perm h]

/-! ### Helper lemmas about the fold embeddings of Python `max` and `min` -/

theorem foldl_max_init (l : List ℚ) (a : ℚ) : a ≤ l.foldl max a := by
  induction l generalizing a with
  | nil => exact le_refl a
  | cons b t ih => exact le_trans (le_max_left a b) (ih (max a b))

theorem foldl_max_mem_le {l : List ℚ} {x : ℚ} (hx : x ∈ l) (a : ℚ) :
    x ≤ l.foldl max a := by
  induction l generalizing a with
  | nil => cases hx
  | cons b t ih =>
    simp only [List.foldl_cons]
    rcases List.mem_cons.mp hx with h | h
    · subst h
      exact le_trans (le_max_right a x) (foldl_max_init t (max a x))
    · exact ih h (max a b)

theorem foldl_max_choice (l : List ℚ) (a : ℚ) :
    l.foldl max a = a ∨ l.foldl max a ∈ l := by
  induction l generalizing a with
  | nil => exact Or.inl rfl
  | cons b t ih =>
    rcases ih (max a b) with h | h
    · rcases max_choice a b with h2 | h2
      · exact Or.inl (by rw [List.foldl_cons, h, h2])
      · exact Or.inr (by rw [List.foldl_cons, h, h2]; exact List.mem_cons_self b t)
    · exact Or.inr (List.mem_cons_of_mem b h)

theorem listMax_mem {l : List ℚ} (h : l ≠ []) : listMax l ∈ l := by
  match l with
  | a :: t =>
    simp only [listMax]
    rcases foldl_max_choice t a with h2 | h2
    · rw [h2]; exact List.mem_cons_self a t
    · exact List.mem_cons_of_mem a h2

theorem le_listMax {l : List ℚ} {x : ℚ} (hx : x ∈ l) : x ≤ listMax l := by
  match l with
  | a :: t =>
    simp only [listMax]
    rcases List.mem_cons.mp hx with h | h
    · subst h; exact foldl_max_init t x
    · exact foldl_max_mem_le h a

theorem listMax_perm {l l' : List ℚ} (h : l.Perm l') : listMax l = listMax l' := by
  rcases eq_or_ne l [] with rfl | hne
  · rw [← h.nil_eq]
  · have hne' : l' ≠ [] := fun h0 => hne (List.Perm.eq_nil (h0 ▸ h))
    exact le_antisymm
      (le_listMax (h.mem_iff.mp (listMax_mem hne)))
      (le_listMax (h.mem_iff.mpr (listMax_mem hne')))

theorem listMax_of_all_eq {l : List ℚ} {c : ℚ} (h : l ≠ [])
    (hall : ∀ x ∈ l, x = c) : listMax l = c :=
  hall _ (listMax_mem h)

theorem foldl_min_init (l : List ℚ) (a : ℚ) : l.foldl min a ≤ a := by
  induction l generalizing a with
  | nil => exact le_refl a
  | cons b t ih => exact le_trans (ih (min a b)) (min_le_left a b)

theorem foldl_min_mem_le {l : List ℚ} {x : ℚ} (hx : x ∈ l) (a : ℚ) :
    l.foldl min a ≤ x := by
  induction l generalizing a with
  | nil => cases hx
  | cons b t ih =>
    simp only [List.foldl_cons]
    rcases List.mem_cons.mp hx with h | h
    · subst h
      exact le_trans (foldl_min_init t (min a x)) (min_le_right a x)
    · exact ih h (min a b)

theorem foldl_min_choice (l : List ℚ) (a : ℚ) :
    l.foldl min a = a ∨ l.foldl min a ∈ l := by
  induction l generalizing a with
  | nil => exact Or.inl rfl
  | cons b t ih =>
    rcases ih (min a b) with h | h
    · rcases min_choice a b with h2 | h2
      · exact Or.inl (by rw [List.foldl_cons, h, h2])
      · exact Or.inr (by rw [List.foldl_cons, h, h2]; exact List.mem_cons_self b t)
    · exact Or.inr (List.mem_cons_of_mem b h)

theorem listMin_mem {l : List ℚ} (h : l ≠ []) : listMin l ∈ l := by
  match l with
  | a :: t =>
    simp only [listMin]
    rcases foldl_min_choice t a with h2 | h2
    · rw [h2]; exact List.mem_cons_self a t
    · exact List.mem_cons_of_mem a h2

theorem listMin_le {l : List ℚ} {x : ℚ} (hx : x ∈ l) : listMin l ≤ x := by
  match l with
  | a :: t =>
    simp only [listMin]
    rcases List.mem_cons.mp hx with h | h
    · subst h; exact foldl_min_init t x
    · exact foldl_min_mem_le h a

theorem listMin_perm {l l' : List ℚ} (h : l.Perm l') : listMin l = listMin l' := by
  rcases eq_or_ne l [] with rfl | hne
  · rw [← h.nil_eq]
  · have hne' : l' ≠ [] := fun h0 => hne (List.Perm.eq_nil (h0 ▸ h))
    exact le_antisymm
      (listMin_le (h.mem_iff.mpr (listMin_mem hne')))
      (listMin_le (h.mem_iff.mp (listMin_mem hne)))

theorem listMin_of_all_eq {l : List ℚ} {c : ℚ} (h : l ≠ [])
    (hall : ∀ x ∈ l, x = c) : listMin l = c :=
  hall _ (listMin_mem h)

/-! ### Helper lemmas about flows whose timestamps are all equal -/

theorem diffs_all_zero {c : ℚ} :
    ∀ {l : List ℚ}, (∀ x ∈ l, x = c) → ∀ d ∈ diffs l, d = 0 := by
  intro l
  induction l with
  | nil => intro _ d hd; cases hd
  | cons a t ih =>
    intro h d hd
    match t, hd with
    | b :: t2, hd =>
      rcases List.mem_cons.mp hd with h1 | h1
      · have ha : a = c := h a (List.mem_cons_self _ _)
        have hb : b = c := h b (List.mem_cons_of_mem _ (List.mem_cons_self _ _))
        rw [h1, ha, hb, sub_self]
      · exact ih (fun x hx => h x (List.mem_cons_of_mem _ hx)) d h1

theorem calculate_time_diff_all_zero {l : List ℚ} {c : ℚ}
    (h : ∀ x ∈ l, x = c) : ∀ d ∈ calculate_time_diff l, d = 0 := by
  intro d hd
  unfold calculate_time_diff at hd
  split at hd
  · cases hd
  · exact diffs_all_zero (fun x hx => h x ((sortQ_perm l).mem_iff.mp hx)) d hd

theorem npMean_all_zero {l : List ℚ} (h : ∀ x ∈ l, x = 0) : npMean l = 0 := by
  unfold npMean
  rw [List.sum_eq_zero h, zero_div]

theorem npVar_all_zero {l : List ℚ} (h : ∀ x ∈ l, x = 0) : npVar l = 0 := by
  unfold npVar
  rw [List.sum_eq_zero, zero_div]
  intro y hy
  rcases List.mem_map.mp hy with ⟨x, hx, rfl⟩
  rw [h x hx, npMean_all_zero h, sub_zero]
  norm_num

theorem npStd_all_zero {l : List ℚ} (h : ∀ x ∈ l, x = 0) : npStd l = 0 := by
  unfold npStd
  rw [npVar_all_zero h]
  simp

theorem extract_fwd_iat_std_all_eq {tl : List ℚ} {c : ℚ}
    (h : ∀ x ∈ tl, x = c) : extract_fwd_iat_std tl = 0 := by
  unfold extract_fwd_iat_std
  dsimp only
  split
  · rfl
  · exact npStd_all_zero (calculate_time_diff_all_zero h)

theorem extract_bwd_iat_std_all_eq {tl : List ℚ} {c : ℚ}
    (h : ∀ x ∈ tl, x = c) : extract_bwd_iat_std tl = 0 := by
  unfold extract_bwd_iat_std
  dsimp only
  split
  · rfl
  · exact npStd_all_zero (calculate_time_diff_all_zero h)

theorem extract_flow_iat_std_all_eq {tl : List ℚ} {c : ℚ}
    (h : ∀ x ∈ tl, x = c) : extract_flow_iat_std tl = 0 := by
  unfold extract_flow_iat_std
  dsimp only
  split
  · rfl
  · exact npStd_all_zero (calculate_time_diff_all_zero h)

theorem extract_fwd_iat_max_all_eq {tl : List ℚ} {c : ℚ}
    (h : ∀ x ∈ tl, x = c) : extract_fwd_iat_max tl = 0 := by
  unfold extract_fwd_iat_max
  dsimp only
  split
  · rfl
  · exact listMax_of_all_eq (by assumption) (calculate_time_diff_all_zero h)

theorem extract_flow_iat_max_all_eq {tl : List ℚ} {c : ℚ}
    (h : ∀ x ∈ tl, x = c) : extract_flow_iat_max tl = 0 := by
  unfold extract_flow_iat_max
  dsimp only
  split
  · rfl
  · exact listMax_of_all_eq (by assumption) (calculate_time_diff_all_zero h)

theorem extract_bwd_iat_max_all_eq {tl : List ℚ} {c : ℚ}
    (h : ∀ x ∈ tl, x = c) : extract_bwd_iat_max tl = 0 := by
  unfold extract_bwd_iat_max
  dsimp only
  split
  · rfl
  · exact listMax_of_all_eq (by assumption) (calculate_time_diff_all_zero h)

theorem extract_fwd_iat_mean_all_eq {tl : List ℚ} {c : ℚ}
    (h : ∀ x ∈ tl, x = c) : extract_fwd_iat_mean tl = 0 := by
  unfold extract_fwd_iat_mean
  dsimp only
  split
  · rfl
  · exact npMean_all_zero (calculate_time_diff_all_zero h)

theorem extract_flow_iat_mean_all_eq {tl : List ℚ} {c : ℚ}
    (h : ∀ x ∈ tl, x = c) : extract_flow_iat_mean tl = 0 := by
  unfold extract_flow_iat_mean
  dsimp only
  split
  · rfl
  · exact npMean_all_zero (calculate_time_diff_all_zero h)

theorem extract_fwd_iat_total_all_eq {tl : List ℚ} {c : ℚ}
    (h : ∀ x ∈ tl, x = c) : extract_fwd_iat_total tl = 0 := by
  unfold extract_fwd_iat_total
  dsimp only
  split
  · rfl
  · exact List.sum_eq_zero (calculate_time_diff_all_zero h)

theorem extract_flow_duration_all_eq {tl : List ℚ} {c : ℚ}
    (h : ∀ x ∈ tl, x = c) : extract_flow_duration tl = 0 := by
  unfold extract_flow_duration
  split
  · rfl
  · have hne : tl ≠ [] := by
      intro h0
      subst h0
      simp at *
    rw [listMax_of_all_eq hne h, listMin_of_all_eq hne h, sub_self]

theorem calculate_idle_times_all_eq {tl : List ℚ} {c T : ℚ} (hT : 0 ≤ T)
    (h : ∀ x ∈ tl, x = c) : calculate_idle_times tl T = [] := by
  unfold calculate_idle_times
  rw [List.filter_eq_nil_iff]
  intro d hd
  have : d = 0 := calculate_time_diff_all_zero h d hd
  subst this
  simpa using not_lt_of_le hT

theorem extract_idle_max_all_eq {tl : List ℚ} {c T : ℚ} (hT : 0 ≤ T)
    (h : ∀ x ∈ tl, x = c) : extract_idle_max tl T = 0 := by
  unfold extract_idle_max
  rw [calculate_idle_times_all_eq hT h]
  rfl

theorem extract_idle_mean_all_eq {tl : List ℚ} {c T : ℚ} (hT : 0 ≤ T)
    (h : ∀ x ∈ tl, x = c) : extract_idle_mean tl T = 0 := by
  unfold extract_idle_mean
  rw [calculate_idle_times_all_eq hT h]
  rfl

/-! ### Permutation invariance of the extractors -/

theorem extract_fwd_iat_std_perm {l l' : List ℚ} (h : l.Perm l') :
    extract_fwd_iat_std l = extract_fwd_iat_std l' := by
  unfold extract_fwd_iat_std
  rw [calculate_time_diff_perm h]

theorem extract_bwd_iat_std_perm {l l' : List ℚ} (h : l.Perm l') :
    extract_bwd_iat_std l = extract_bwd_iat_std l' := by
  unfold extract_bwd_iat_std
  rw [calculate_time_diff_perm h]

theorem extract_flow_iat_std_perm {l l' : List ℚ} (h : l.Perm l') :
    extract_flow_iat_std l = extract_flow_iat_std l' := by
  unfold extract_flow_iat_std
  rw [calculate_time_diff_perm h]

theorem extract_fwd_iat_max_perm {l l' : List ℚ} (h : l.Perm l') :
    extract_fwd_iat_max l = extract_fwd_iat_max l' := by
  unfold extract_fwd_iat_max
  rw [calculate_time_diff_perm h]

theorem extract_flow_iat_max_perm {l l' : List ℚ} (h : l.Perm l') :
    extract_flow_iat_max l = extract_flow_iat_max l' := by
  unfold extract_flow_iat_max
  rw [calculate_time_diff_perm h]

theorem extract_bwd_iat_max_perm {l l' : List ℚ} (h : l.Perm l') :
    extract_bwd_iat_max l = extract_bwd_iat_max l' := by
  unfold extract_bwd_iat_max
  rw [calculate_time_diff_perm h]

theorem extract_fwd_iat_mean_perm {l l' : List ℚ} (h : l.Perm l') :
    extract_fwd_iat_mean l = extract_fwd_iat_mean l' := by
  unfold extract_fwd_iat_mean
  rw [calculate_time_diff_perm h]

theorem extract_flow_iat_mean_perm {l l' : List ℚ} (h : l.Perm l') :
    extract_flow_iat_mean l = extract_flow_iat_mean l' := by
  unfold extract_flow_iat_mean
  rw [calculate_time_diff_perm h]

theorem extract_fwd_iat_total_perm {l l' : List ℚ} (h : l.Perm l') :
    extract_fwd_iat_total l = extract_fwd_iat_total l' := by
  unfold extract_fwd_iat_total
  rw [calculate_time_diff_perm h]

theorem extract_flow_duration_perm {l l' : List ℚ} (h : l.Perm l') :
    extract_flow_duration l = extract_flow_duration l' := by
  unfold extract_flow_duration
  rw [h.length_eq, listMax_perm h, listMin_perm h]

theorem extract_idle_max_perm {l l' : List ℚ} (T : ℚ) (h : l.Perm l') :
    extract_idle_max l T = extract_idle_max l' T := by
  unfold extract_idle_max calculate_idle_times
  rw [calculate_time_diff_perm h]

theorem extract_idle_mean_perm {l l' : List ℚ} (T : ℚ) (h : l.Perm l') :
    extract_idle_mean l T = extract_idle_mean l' T := by
  unfold extract_idle_mean calculate_idle_times
  rw [calculate_time_diff_perm h]

theorem mkFeatures_perm {f f' b b' a a' : List ℚ}
    (hf : f.Perm f') (hb : b.Perm b') (ha : a.Perm a') :
    mkFeatures f b a = mkFeatures f' b' a' := by
  unfold mkFeatures
  rw [extract_fwd_iat_std_perm hf, extract_bwd_iat_std_perm hb,
    extract_flow_iat_std_perm ha, extract_fwd_iat_max_perm hf,
    extract_flow_iat_mean_perm ha, extract_flow_iat_max_perm ha,
    extract_fwd_iat_mean_perm hf, extract_fwd_iat_total_perm hf,
    extract_flow_duration_perm ha, extract_bwd_iat_max_perm hb,
    extract_idle_max_perm _ ha, extract_idle_mean_perm _ ha]

/-! ### Characterization of the direction-classification loop -/

theorem foldl_stepPacket (fip : String) (fport : Int) :
    ∀ (pd : List RawPacket) (f b a : List ℚ),
      pd.foldl (stepPacket fip fport) (f, b, a) =
        (f ++ (pd.filter (isFwdB fip fport)).map pTime,
         b ++ (pd.filter (isBwdB fip fport)).map pTime,
         a ++ (pd.filter hasTime).map pTime) := by
  intro pd
  induction pd with
  | nil => intro f b a; simp
  | cons p rest ih =>
    intro f b a
    rw [List.foldl_cons, show stepPacket fip fport (f, b, a) p =
      (f ++ (if isFwdB fip fport p then [pTime p] else []),
       b ++ (if isBwdB fip fport p then [pTime p] else []),
       a ++ (if hasTime p then [pTime p] else [])) from ?stepCase]
    case stepCase =>
      unfold stepPacket isFwdB isBwdB hasTime pTime
      rcases hts : p.timestamp with _ | ts
      · simp
      · rcases ts with _ | t
        · simp
        · rcases hip : p.src_ip with _ | ip
          · simp
          · rcases hport : p.src_port with _ | port
            · by_cases hipeq : ip = fip <;> simp [hipeq]
            · by_cases hipeq : ip = fip
              · by_cases hporteq : port = fport <;> simp [hipeq, hporteq]
              · have : ¬ (port = fport ∧ ip = fip) := fun hc => hipeq hc.2
                simp [hipeq]
    rw [ih]
    by_cases h1 : isFwdB fip fport p <;>
      by_cases h2 : isBwdB fip fport p <;>
        by_cases h3 : hasTime p <;>
          simp [h1, h2, h3, List.filter_cons]

theorem parse_packet_data_char (p0 : RawPacket) (rest : List RawPacket)
    (fip : String) (fport : Int)
    (h1 : p0.src_ip = some fip) (h2 : p0.src_port = some fport) :
    parse_packet_data (p0 :: rest) =
      Except.ok
        (((p0 :: rest).filter (isFwdB fip fport)).map pTime,
         ((p0 :: rest).filter (isBwdB fip fport)).map pTime,
         ((p0 :: rest).filter hasTime).map pTime) := by
  unfold parse_packet_data
  dsimp only
  rw [h1, h2]
  dsimp only
  rw [foldl_stepPacket]
  simp

/-- On a packet with a parseable timestamp and both comparison keys present,
`isBwdB` is the complement of `isFwdB`. -/
theorem isBwdB_eq_not_isFwdB {p : RawPacket} {fip : String} {fport : Int}
    (hg : goodPacket p = true) :
    isBwdB fip fport p = !(isFwdB fip fport p) := by
  unfold goodPacket at hg
  rcases Bool.and_eq_true_iff.mp hg with ⟨hg1, hport⟩
  rcases Bool.and_eq_true_iff.mp hg1 with ⟨htime, hip⟩
  rcases Option.isSome_iff_exists.mp hip with ⟨ip, hip⟩
  rcases Option.isSome_iff_exists.mp hport with ⟨port, hport⟩
  unfold isBwdB isFwdB
  rw [htime, hip, hport]
  by_cases hipeq : ip = fip
  · by_cases hporteq : port = fport <;> simp [hipeq, hporteq]
  · have : ¬ (some ip = some fip) := fun hc => hipeq (Option.some.injEq _ _ ▸ hc)
    simp [hipeq, this]

/-- Good packets are never skipped: `hasTime` holds. -/
theorem goodPacket_hasTime {p : RawPacket} (hg : goodPacket p = true) :
    hasTime p = true := by
  unfold goodPacket at hg
  exact (Bool.and_eq_true_iff.mp (Bool.and_eq_true_iff.mp hg).1).1

/-! ### Claim theorems -/

/-- C4: for a list of at most one time point `calculate_time_diff` is empty
and the std/mean/max/sum extractors over it all return 0; the std extractor
returns 0 whenever there are fewer than 2 inter-arrival values, and
otherwise computes exactly the population (divide-by-`N`) standard
deviation, a well-defined non-negative real (never NaN, never an error). -/
theorem C4_short_flows_and_population_std :
    (∀ tl : List ℚ, tl.length ≤ 1 →
      calculate_time_diff tl = [] ∧ extract_fwd_iat_std tl = 0 ∧
      extract_fwd_iat_mean tl = 0 ∧ extract_fwd_iat_max tl = 0 ∧
      extract_fwd_iat_total tl = 0) ∧
    (∀ tl : List ℚ, (calculate_time_diff tl).length < 2 →
      extract_fwd_iat_std tl = 0) ∧
    (∀ tl : List ℚ, 2 ≤ (calculate_time_diff tl).length →
      extract_fwd_iat_std tl = populationStd (calculate_time_diff tl) ∧
      0 ≤ extract_fwd_iat_std tl) := by
  refine ⟨fun tl h => ?_, fun tl h => ?_, fun tl h => ?_⟩
  · have hctd : calculate_time_diff tl = [] := by
      unfold calculate_time_diff
      rw [if_pos h]
    refine ⟨hctd, ?_, ?_, ?_, ?_⟩ <;>
      simp [extract_fwd_iat_std, extract_fwd_iat_mean, extract_fwd_iat_max,
        extract_fwd_iat_total, hctd]
  · unfold extract_fwd_iat_std
    dsimp only
    rw [if_pos h]
  · unfold extract_fwd_iat_std
    dsimp only
    rw [if_neg (not_lt.mpr h)]
    exact ⟨rfl, Real.sqrt_nonneg _⟩

/-- C4 witness: the hypotheses of `C4_short_flows_and_population_std` hold at
concrete inputs. -/
theorem C4_witness :
    calculate_time_diff [(7 : ℚ)] = [] ∧
    extract_fwd_iat_std [(0 : ℚ), 1000, 3000] =
      populationStd (calculate_time_diff [(0 : ℚ), 1000, 3000]) := by
  constructor
  · exact (C4_short_flows_and_population_std.1 [7] (by norm_num)).1
  · refine (C4_short_flows_and_population_std.2.2 [0, 1000, 3000] ?_).1
    norm_num [calculate_time_diff, sortQ, List.insertionSort,
      List.orderedInsert, diffs]

/-- C5: `calculate_idle_times` is a subsequence of `calculate_time_diff`
whose elements all strictly exceed the threshold, and the default threshold
of the idle features is the literal 500000 microseconds. -/
theorem C5_idle_times_strict_subsequence :
    (∀ (tl : List ℚ) (T : ℚ),
      (calculate_idle_times tl T).Sublist (calculate_time_diff tl) ∧
      ∀ x ∈ calculate_idle_times tl T, T < x) ∧
    Config.IDLE_THRESHOLD = 500000 := by
  refine ⟨fun tl T => ⟨List.filter_sublist _, fun x hx => ?_⟩, rfl⟩
  unfold calculate_idle_times at hx
  rcases List.mem_filter.mp hx with ⟨-, h⟩
  exact of_decide_eq_true h

/-- C5 witness: the membership hypothesis of
`C5_idle_times_strict_subsequence` holds at a concrete input. -/
theorem C5_witness :
    (calculate_idle_times [(0 : ℚ), 600000] 500000).Sublist
      (calculate_time_diff [(0 : ℚ), 600000]) ∧
    (500000 : ℚ) < 600000 := by
  have h := C5_idle_times_strict_subsequence.1 [(0 : ℚ), 600000] 500000
  refine ⟨h.1, h.2 600000 ?_⟩
  have hm : calculate_idle_times [(0 : ℚ), 600000] 500000 = [600000] := by
    norm_num [calculate_idle_times, calculate_time_diff, sortQ,
      List.insertionSort, List.orderedInsert, diffs, List.filter]
  rw [hm]
  exact List.mem_singleton_self _

/-- C1 counterexample: for the scenario timestamps `t, t+1000, t+3000` (at
`t = 0`, all packets forward) the claimed feature values
`Fwd IAT Mean = 2000.0` and `Fwd IAT Std = 1000.0` are wrong: the forward
inter-arrival times are `[1000, 2000]`, whose mean is 1500. -/
theorem C1_counterexample :
    ¬ (extract_fwd_iat_mean [(0 : ℚ), 1000, 3000] = 2000 ∧
       extract_fwd_iat_std [(0 : ℚ), 1000, 3000] = 1000) := by
  rintro ⟨h, -⟩
  have h2 : extract_fwd_iat_mean [(0 : ℚ), 1000, 3000] = 1500 := by
    norm_num [extract_fwd_iat_mean, npMean, calculate_time_diff, sortQ,
      List.insertionSort, List.orderedInsert, diffs, List.cons_ne_nil]
  rw [h2] at h
  norm_num at h

/-- C1 (amended): for a flow of 3 forward packets with timestamps
`t, t+1000µs, t+3000µs` the forward inter-arrival times are `[1000, 2000]`,
so Fwd IAT Mean = 1500.0, Fwd IAT Max = 2000.0, Fwd IAT Total = 3000.0,
Fwd IAT Std = 500.0 (the population standard deviation of `[1000, 2000]`),
and with no backward packets every Bwd IAT feature is 0.0. -/
theorem C1_scenario_values (t : ℚ) :
    calculate_time_diff [t, t + 1000, t + 3000] = [1000, 2000] ∧
    extract_fwd_iat_mean [t, t + 1000, t + 3000] = 1500 ∧
    extract_fwd_iat_max [t, t + 1000, t + 3000] = 2000 ∧
    extract_fwd_iat_total [t, t + 1000, t + 3000] = 3000 ∧
    extract_fwd_iat_std [t, t + 1000, t + 3000] = 500 ∧
    extract_bwd_iat_std [] = 0 ∧
    extract_bwd_iat_max [] = 0 := by
  have hsort : sortQ [t, t + 1000, t + 3000] = [t, t + 1000, t + 3000] := by
    apply sortQ_eq_self
    refine List.sorted_cons.mpr ⟨fun b hb => ?_,
      List.sorted_cons.mpr ⟨fun b hb => ?_, List.sorted_singleton _⟩⟩
    · rcases List.mem_cons.mp hb with h | h
      · subst h; linarith
      · rw [List.mem_singleton] at h; subst h; linarith
    · rw [List.mem_singleton] at hb; subst hb; linarith
  have hctd : calculate_time_diff [t, t + 1000, t + 3000] = [1000, 2000] := by
    have hd1 : diffs [t + 3000] = [] := rfl
    unfold calculate_time_diff
    rw [if_neg (by norm_num), hsort]
    show (t + 1000 - t) :: (t + 3000 - (t + 1000)) :: diffs [t + 3000] = [1000, 2000]
    rw [hd1]
    norm_num
  refine ⟨hctd, ?_, ?_, ?_, ?_, ?_, ?_⟩
  · unfold extract_fwd_iat_mean
    rw [hctd]
    norm_num [npMean, List.cons_ne_nil]
  · unfold extract_fwd_iat_max
    rw [hctd]
    norm_num [listMax, max_def, List.cons_ne_nil]
  · unfold extract_fwd_iat_total
    rw [hctd]
    norm_num [List.cons_ne_nil]
  · unfold extract_fwd_iat_std
    rw [hctd]
    norm_num [npStd, npVar, npMean]
    rw [show ((250000 : ℝ)) = 500 ^ 2 by norm_num, Real.sqrt_sq]
    norm_num
  · simp [extract_bwd_iat_std, calculate_time_diff]
  · simp [extract_bwd_iat_max, calculate_time_diff]

/-- C10 counterexample: `calculate_time_diff` does not leave its input list
unchanged: called on the unsorted list `[1, 0]` it sorts the caller's
list in place, which afterwards reads `[0, 1]`, not `[1, 0]`. -/
theorem C10_counterexample :
    (calculate_time_diff_st [(1 : ℚ), 0]).1 = [0, 1] ∧
    ¬ ((calculate_time_diff_st [(1 : ℚ), 0]).1 = [1, 0]) := by
  have h : (calculate_time_diff_st [(1 : ℚ), 0]).1 = [0, 1] := by
    norm_num [calculate_time_diff_st, sortQ, List.insertionSort,
      List.orderedInsert]
  refine ⟨h, ?_⟩
  rw [h]
  intro hc
  have := List.head_eq_of_cons_eq hc
  norm_num at this

/-- C10 (amended): `calculate_time_diff` returns the consecutive differences
of its input sorted ascending, and it mutates the caller's list: after the
call the list is a permutation (the ascending sort) of what was passed in,
and it is unchanged only when already sorted or of length at most 1. -/
theorem C10_returned_diffs_and_mutation (tl : List ℚ) :
    (calculate_time_diff_st tl).2 = calculate_time_diff tl ∧
    (calculate_time_diff_st tl).1.Perm tl ∧
    (calculate_time_diff_st tl).2 = diffs (calculate_time_diff_st tl).1 ∧
    (tl.Sorted (fun a b : ℚ => a ≤ b) → (calculate_time_diff_st tl).1 = tl) := by
  by_cases h : tl.length ≤ 1
  · have h1 : calculate_time_diff_st tl = (tl, []) := by
      unfold calculate_time_diff_st
      rw [if_pos h]
    have h2 : calculate_time_diff tl = [] := by
      unfold calculate_time_diff
      rw [if_pos h]
    rw [h1, h2]
    refine ⟨rfl, List.Perm.refl _, ?_, fun _ => rfl⟩
    match tl, h with
    | [], _ => rfl
    | [a], _ => rfl
  · have h1 : calculate_time_diff_st tl = (sortQ tl, diffs (sortQ tl)) := by
      unfold calculate_time_diff_st
      rw [if_neg h]
    have h2 : calculate_time_diff tl = diffs (sortQ tl) := by
      unfold calculate_time_diff
      rw [if_neg h]
    rw [h1, h2]
    exact ⟨rfl, sortQ_perm tl, rfl, fun hs => sortQ_eq_self hs⟩

/-- C10 witness: the sortedness hypothesis of
`C10_returned_diffs_and_mutation` holds at a concrete input. -/
theorem C10_witness : (calculate_time_diff_st [(0 : ℚ), 5]).1 = [0, 5] := by
  refine (C10_returned_diffs_and_mutation [(0 : ℚ), 5]).2.2.2 ?_
  refine List.sorted_cons.mpr ⟨fun b hb => ?_, List.sorted_singleton _⟩
  rw [List.mem_singleton] at hb
  subst hb
  norm_num

/-- C6: for a non-empty list of valid packets the initiator is the
`(src_ip, src_port)` pair of the first submitted packet; the first packet is
classified forward (it heads the forward list), every packet matching the
initiator pair is forward, every other packet is backward, and the
classification never looks at timestamp order. -/
theorem C6_direction_partition (p0 : RawPacket) (rest : List RawPacket)
    (fip : String) (fport : Int)
    (hgood : ∀ p ∈ p0 :: rest, goodPacket p = true)
    (h1 : p0.src_ip = some fip) (h2 : p0.src_port = some fport) :
    parse_packet_data (p0 :: rest) =
      Except.ok
        (pTime p0 :: (rest.filter (isFwdB fip fport)).map pTime,
         ((p0 :: rest).filter (fun p => !(isFwdB fip fport p))).map pTime,
         (p0 :: rest).map pTime) ∧
    isFwdB fip fport p0 = true := by
  have hfwd0 : isFwdB fip fport p0 = true := by
    unfold isFwdB
    rw [goodPacket_hasTime (hgood p0 (List.mem_cons_self _ _)), h1, h2]
    simp
  refine ⟨?_, hfwd0⟩
  rw [parse_packet_data_char p0 rest fip fport h1 h2]
  have ha : (p0 :: rest).filter (isFwdB fip fport) =
      p0 :: rest.filter (isFwdB fip fport) :=
    List.filter_cons_of_pos hfwd0
  have hb : (p0 :: rest).filter (isBwdB fip fport) =
      (p0 :: rest).filter (fun p => !(isFwdB fip fport p)) :=
    List.filter_congr (fun p hp => isBwdB_eq_not_isFwdB (hgood p hp))
  have hc : (p0 :: rest).filter hasTime = p0 :: rest :=
    List.filter_eq_self.mpr (fun p hp => goodPacket_hasTime (hgood p hp))
  rw [ha, hb, hc, List.map_cons]

/-- C6 witness: a concrete two-packet flow whose backward packet carries the
earlier timestamp, showing timestamp order plays no role. -/
theorem C6_witness :
    parse_packet_data
      [⟨some (some 5), some "a", some "b", some 1, some 2⟩,
       ⟨some (some 0), some "b", some "a", some 3, some 4⟩] =
      Except.ok ([5], [0], [5, 0]) := by
  have h := C6_direction_partition
    ⟨some (some 5), some "a", some "b", some 1, some 2⟩
    [⟨some (some 0), some "b", some "a", some 3, some 4⟩]
    "a" 1 (by decide) rfl rfl
  rw [h.1]
  simp [isFwdB, hasTime, pTime, List.filter]

/-- C7 counterexample: a packet invalid only in its `src_ip` key (timestamp
parses fine) is NOT skipped entirely: its timestamp still lands in the
`all_packet_times` output, because the Python loop appends to that list
before reading `src_ip` inside the `try` block.  Dropping the packet from
all three outputs would have produced `([0], [], [0])`. -/
theorem C7_counterexample :
    parse_packet_data
      [⟨some (some 0), some "a", some "b", some 1, some 2⟩,
       ⟨some (some 5), none, some "b", some 1, some 2⟩] =
      Except.ok ([0], [], [0, 5]) ∧
    ¬ ((Except.ok (([0] : List ℚ), ([] : List ℚ), ([0, 5] : List ℚ)) :
          Except String (List ℚ × List ℚ × List ℚ)) =
        Except.ok ([0], [], [0])) := by
  constructor
  · simp [parse_packet_data, stepPacket]
  · intro hc
    simp only [Except.ok.injEq, Prod.mk.injEq] at hc
    have := hc.2.2
    simp at this

/-- C7 (amended): provided the first submitted packet has its `src_ip` and
`src_port` keys, no error is raised and the remaining packets are processed;
a packet whose timestamp is missing or unparseable appears in none of the
three outputs; but a packet with a parseable timestamp and a missing
`src_ip`/`src_port` key is only dropped from the forward/backward lists —
its timestamp still appears in the `all` list (and when its present
`src_ip` differs from the initiator's it is even classified backward
without its `src_port` being read). -/
theorem C7_per_packet_tolerance (p0 : RawPacket) (rest : List RawPacket)
    (fip : String) (fport : Int)
    (h1 : p0.src_ip = some fip) (h2 : p0.src_port = some fport) :
    parse_packet_data (p0 :: rest) =
      Except.ok
        (((p0 :: rest).filter (isFwdB fip fport)).map pTime,
         ((p0 :: rest).filter (isBwdB fip fport)).map pTime,
         ((p0 :: rest).filter hasTime).map pTime) ∧
    (∀ p : RawPacket, hasTime p = false →
      isFwdB fip fport p = false ∧ isBwdB fip fport p = false) := by
  refine ⟨parse_packet_data_char p0 rest fip fport h1 h2, fun p hp => ?_⟩
  unfold isFwdB isBwdB
  rw [hp]
  simp

/-- C7 witness: a concrete flow whose second packet has an unparseable
timestamp; that packet appears in none of the three outputs. -/
theorem C7_witness :
    parse_packet_data
      [⟨some (some 0), some "a", some "b", some 1, some 2⟩,
       ⟨some none, some "a", some "b", some 1, some 2⟩] =
      Except.ok ([0], [], [0]) := by
  have h := C7_per_packet_tolerance
    ⟨some (some 0), some "a", some "b", some 1, some 2⟩
    [⟨some none, some "a", some "b", some 1, some 2⟩]
    "a" 1 rfl rfl
  rw [h.1]
  simp [isFwdB, isBwdB, hasTime, pTime, List.filter]

/-- Packet used by the C3 statements: first forward packet of the example
flow (`src_ip = "a"`, `src_port = 1`, time 0). -/
def pktA1 : RawPacket := ⟨some (some 0), some "a", some "x", some 1, some 9⟩

/-- Second forward packet of the C3 example flow (time 1000). -/
def pktA2 : RawPacket := ⟨some (some 1000), some "a", some "x", some 1, some 9⟩

/-- Backward packet of the C3 example flow (`src_ip = "b"`, time 3000). -/
def pktB : RawPacket := ⟨some (some 3000), some "b", some "x", some 2, some 9⟩

/-- C3 counterexample: shuffling the packet list is NOT feature-preserving
in general, because the initiator is the first *submitted* packet: moving
the backward packet to the front of `[pktA1, pktA2, pktB]` changes the
initiator from `("a", 1)` to `("b", 2)`, swapping the forward and backward
roles, and the resulting Feature Vectors differ (Fwd IAT Total becomes 0
instead of 1000). -/
theorem C3_counterexample :
    ¬ (extract_all_features [pktA1, pktA2, pktB] =
       extract_all_features [pktB, pktA1, pktA2]) := by
  intro h
  have h1 : parse_packet_data [pktA1, pktA2, pktB] =
      Except.ok ([0, 1000], [3000], [0, 1000, 3000]) := by
    simp [parse_packet_data, stepPacket, pktA1, pktA2, pktB]
  have h2 : parse_packet_data [pktB, pktA1, pktA2] =
      Except.ok ([3000], [0, 1000], [3000, 0, 1000]) := by
    simp [parse_packet_data, stepPacket, pktA1, pktA2, pktB]
  unfold extract_all_features at h
  rw [h1, h2] at h
  simp only [Except.map, Except.ok.injEq] at h
  have e1 : extract_fwd_iat_total [(0 : ℚ), 1000] = 1000 := by
    norm_num [extract_fwd_iat_total, calculate_time_diff, sortQ,
      List.insertionSort, List.orderedInsert, diffs, List.cons_ne_nil]
  have e2 : extract_fwd_iat_total [(3000 : ℚ)] = 0 := by
    norm_num [extract_fwd_iat_total, calculate_time_diff]
  simp only [mkFeatures, List.cons.injEq, Prod.mk.injEq] at h
  obtain ⟨-, -, -, -, -, -, -, ⟨-, hv⟩, -⟩ := h
  rw [e1, e2] at hv
  norm_num at hv

/-- C3 (amended): `calculate_time_diff` is invariant under any permutation
of its input, and the Feature Extractor is permutation-insensitive as long
as the shuffle keeps the initiator: two orderings of the same valid packets
whose first packets carry the same `(src_ip, src_port)` yield identical
Feature Vectors.  (A shuffle that changes the first packet's
`(src_ip, src_port)` can change the vector, per the counterexample.) -/
theorem C3_permutation_invariance :
    (∀ l l' : List ℚ, l.Perm l' →
      calculate_time_diff l = calculate_time_diff l') ∧
    (∀ (p0 p0' : RawPacket) (rest rest' : List RawPacket),
      (p0 :: rest).Perm (p0' :: rest') →
      (∀ p ∈ p0 :: rest, goodPacket p = true) →
      p0.src_ip = p0'.src_ip → p0.src_port = p0'.src_port →
      extract_all_features (p0 :: rest) =
        extract_all_features (p0' :: rest')) := by
  refine ⟨fun l l' h => calculate_time_diff_perm h, ?_⟩
  intro p0 p0' rest rest' hperm hgood hip hport
  have hg0 : goodPacket p0 = true := hgood p0 (List.mem_cons_self _ _)
  unfold goodPacket at hg0
  rcases Bool.and_eq_true_iff.mp hg0 with ⟨hg1, hportsome⟩
  rcases Bool.and_eq_true_iff.mp hg1 with ⟨-, hipsome⟩
  rcases Option.isSome_iff_exists.mp hipsome with ⟨fip, hfip⟩
  rcases Option.isSome_iff_exists.mp hportsome with ⟨fport, hfport⟩
  have hfip' : p0'.src_ip = some fip := by rw [← hip, hfip]
  have hfport' : p0'.src_port = some fport := by rw [← hport, hfport]
  unfold extract_all_features
  rw [parse_packet_data_char p0 rest fip fport hfip hfport,
    parse_packet_data_char p0' rest' fip fport hfip' hfport']
  simp only [Except.map]
  exact congrArg Except.ok
    (mkFeatures_perm ((hperm.filter _).map pTime)
      ((hperm.filter _).map pTime) ((hperm.filter _).map pTime))

/-- C3 witness: swapping the two forward packets of the example flow keeps
the first packet's `(src_ip, src_port)` and hence the Feature Vector. -/
theorem C3_witness :
    extract_all_features [pktA1, pktA2, pktB] =
      extract_all_features [pktA2, pktA1, pktB] :=
  C3_permutation_invariance.2 pktA1 pktA2 [pktA2, pktB] [pktA1, pktB]
    (List.Perm.swap pktA2 pktA1 [pktB]) (by decide) rfl rfl

/-- C2: for every valid non-empty flow the extracted Feature Vector has
exactly 12 entries, named and ordered exactly as `featureNames` (never a
missing entry), and for degenerate flows — a single packet, or all parsed
timestamps equal, which also forces every per-direction sublist constant —
every entry's value is 0. -/
theorem C2_feature_vector_shape (pd : List RawPacket) (feats : List (String × ℝ))
    (hne : pd ≠ [])
    (hgood : ∀ p ∈ pd, goodPacket p = true)
    (hok : extract_all_features pd = Except.ok feats) :
    (feats.map Prod.fst = featureNames ∧ feats.length = 12) ∧
    (∀ c : ℚ, (∀ p ∈ pd, pTime p = c) → ∀ v ∈ feats.map Prod.snd, v = 0) := by
  match pd, hne with
  | p0 :: rest, _ =>
    have hg0 : goodPacket p0 = true := hgood p0 (List.mem_cons_self _ _)
    unfold goodPacket at hg0
    rcases Bool.and_eq_true_iff.mp hg0 with ⟨hg1, hportsome⟩
    rcases Bool.and_eq_true_iff.mp hg1 with ⟨-, hipsome⟩
    rcases Option.isSome_iff_exists.mp hipsome with ⟨fip, hfip⟩
    rcases Option.isSome_iff_exists.mp hportsome with ⟨fport, hfport⟩
    unfold extract_all_features at hok
    rw [parse_packet_data_char p0 rest fip fport hfip hfport] at hok
    simp only [Except.map, Except.ok.injEq] at hok
    subst hok
    refine ⟨⟨by simp [mkFeatures, featureNames], by simp [mkFeatures]⟩, ?_⟩
    intro c hc v hv
    have hsub : ∀ q : RawPacket → Bool,
        ∀ x ∈ ((p0 :: rest).filter q).map pTime, x = c := by
      intro q x hx
      rcases List.mem_map.mp hx with ⟨p, hp, rfl⟩
      exact hc p (List.mem_of_mem_filter hp)
    have hT : (0 : ℚ) ≤ Config.IDLE_THRESHOLD := by
      norm_num [Config.IDLE_THRESHOLD]
    simp only [mkFeatures, List.map_cons, List.map_nil, List.mem_cons,
      List.not_mem_nil, or_false] at hv
    rcases hv with rfl | rfl | rfl | rfl | rfl | rfl | rfl | rfl | rfl | rfl | rfl | rfl
    · exact extract_fwd_iat_std_all_eq (hsub _)
    · exact extract_bwd_iat_std_all_eq (hsub _)
    · exact extract_flow_iat_std_all_eq (hsub _)
    · rw [extract_fwd_iat_max_all_eq (hsub _)]; exact Rat.cast_zero
    · rw [extract_flow_iat_mean_all_eq (hsub _)]; exact Rat.cast_zero
    · rw [extract_flow_iat_max_all_eq (hsub _)]; exact Rat.cast_zero
    · rw [extract_fwd_iat_mean_all_eq (hsub _)]; exact Rat.cast_zero
    · rw [extract_fwd_iat_total_all_eq (hsub _)]; exact Rat.cast_zero
    · rw [extract_flow_duration_all_eq (hsub _)]; exact Rat.cast_zero
    · rw [extract_bwd_iat_max_all_eq (hsub _)]; exact Rat.cast_zero
    · rw [extract_idle_max_all_eq hT (hsub _)]; exact Rat.cast_zero
    · rw [extract_idle_mean_all_eq hT (hsub _)]; exact Rat.cast_zero

/-- C2 witness: a single-packet flow yields the 12 names in order with all
values 0. -/
theorem C2_witness :
    (mkFeatures [0] [] [0]).map Prod.fst = featureNames ∧
    ∀ v ∈ (mkFeatures [0] [] [0]).map Prod.snd, v = 0 := by
  have hok : extract_all_features
      [⟨some (some 0), some "a", some "x", some 1, some 9⟩] =
      Except.ok (mkFeatures [0] [] [0]) := by
    simp [extract_all_features, parse_packet_data, stepPacket, Except.map, pTime]
  have h := C2_feature_vector_shape
    [⟨some (some 0), some "a", some "x", some 1, some 9⟩]
    (mkFeatures [0] [] [0]) (by simp) (by decide) hok
  exact ⟨h.1.1, h.2 0 (by simp [pTime])⟩

/-- A packet that passes the route's required-field presence check has the
keys `parse_packet_data` touches. -/
theorem validPacket_fields {p : RawPacket} (h : missingFields p = []) :
    p.timestamp ≠ none ∧ p.src_ip ≠ none ∧ p.src_port ≠ none := by
  unfold missingFields at h
  by_cases h1 : p.timestamp = none <;> by_cases h2 : p.src_ip = none <;>
    by_cases h3 : p.dst_ip = none <;> by_cases h4 : p.src_port = none <;>
      by_cases h5 : p.dst_port = none <;>
        simp [h1, h2, h3, h4, h5] at h
  exact ⟨h1, h2, h4⟩

/-- The fixed deficient packet of the C8 statements: `dst_port` missing. -/
def pktNoDstPort : RawPacket := ⟨some (some 0), some "a", some "b", some 1, none⟩

/-- The fixed complete packet of the C8 statements. -/
def pktFull : RawPacket := ⟨some (some 0), some "a", some "b", some 1, some 2⟩

/-- C8 counterexample: the `MissingFields` error does NOT name which packet
is deficient.  Two requests that differ only in whether the first or the
second packet lacks `dst_port` produce the byte-identical response
`('Missing required fields in packet: dst_port', 400)`, so the response
cannot identify the packet. -/
theorem C8_counterexample :
    predict true (fun _ => (0, 0)) [pktNoDstPort, pktFull] =
      PredictResult.errorResp "Missing required fields in packet: dst_port" 400 ∧
    predict true (fun _ => (0, 0)) [pktFull, pktNoDstPort] =
      PredictResult.errorResp "Missing required fields in packet: dst_port" 400 ∧
    ([pktNoDstPort, pktFull] : List RawPacket) ≠ [pktFull, pktNoDstPort] := by
  refine ⟨?_, ?_, by decide⟩ <;>
    · simp [predict, pktNoDstPort, pktFull, missingFields, String.intercalate]
      rfl

/-- C8 (amended): `score` validates before any feature or model work: an
empty packet list yields `('Empty packet data', 400)`; a request whose
first deficient packet has missing keys `ks` yields
`('Missing required fields in packet: ' ++ comma-join ks, 400)` naming the
missing keys (in required-field order) of that first deficient packet but
not which packet it is; and on every such invalid request the response is
independent of the loaded classifier. -/
theorem C8_validation :
    (∀ proba : List (String × ℝ) → ℚ × ℚ,
      predict true proba [] = PredictResult.errorResp "Empty packet data" 400) ∧
    (∀ (proba : List (String × ℝ) → ℚ × ℚ) (l1 : List RawPacket)
       (p : RawPacket) (l2 : List RawPacket),
      (∀ q ∈ l1, missingFields q = []) → missingFields p ≠ [] →
      predict true proba (l1 ++ p :: l2) =
        PredictResult.errorResp
          ("Missing required fields in packet: " ++
            String.intercalate ", " (missingFields p)) 400) ∧
    (∀ (proba proba2 : List (String × ℝ) → ℚ × ℚ) (pd : List RawPacket),
      (pd = [] ∨ ∃ p ∈ pd, missingFields p ≠ []) →
      predict true proba pd = predict true proba2 pd) := by
  refine ⟨fun proba => rfl, ?_, ?_⟩
  · intro proba l1 p l2 hl1 hp
    have hfind : (l1 ++ p :: l2).find? (fun q => !(missingFields q).isEmpty) =
        some p := by
      rw [List.find?_append]
      have h1 : l1.find? (fun q => !(missingFields q).isEmpty) = none :=
        List.find?_eq_none.mpr (fun q hq => by simp [hl1 q hq])
      have h2 : (p :: l2).find? (fun q => !(missingFields q).isEmpty) = some p :=
        List.find?_cons_of_pos _ (by simp [hp])
      rw [h1, h2]
      rfl
    have hne : (l1 ++ p :: l2).isEmpty = false := by
      cases l1 <;> rfl
    simp [predict, hne, hfind]
  · intro proba proba2 pd hbad
    rcases hbad with rfl | ⟨p, hp, hpbad⟩
    · rfl
    · have : ((pd.find? (fun q => !(missingFields q).isEmpty)).isSome) :=
        List.find?_isSome.mpr ⟨p, hp, by simp [hpbad]⟩
      rcases Option.isSome_iff_exists.mp this with ⟨q, hq⟩
      simp [predict, hq]

/-- C8 witness: the hypotheses of `C8_validation` hold at a concrete
request whose only packet is missing `timestamp` and `dst_port`; the error
names both keys in required-field order. -/
theorem C8_witness :
    predict true (fun _ => (0, 0)) [⟨none, some "a", some "b", some 1, none⟩] =
      PredictResult.errorResp
        "Missing required fields in packet: timestamp, dst_port" 400 := by
  have h := C8_validation.2.1 (fun _ => (0, 0)) []
    ⟨none, some "a", some "b", some 1, none⟩ []
    (fun q hq => absurd hq (List.not_mem_nil q)) (by simp [missingFields])
  simpa [missingFields, String.intercalate] using h

/-- C9: the verdict is the strict comparison `p_attack > threshold` against
`PREDICTION_THRESHOLD = 0.05`, with `prediction = int(is_attack)`; in
particular an attack probability of 0.06 yields
`prediction = 1, is_attack = true`. -/
theorem C9_threshold_decision :
    Config.PREDICTION_THRESHOLD = 5 / 100 ∧
    (∀ (proba : List (String × ℝ) → ℚ × ℚ) (pd : List RawPacket)
       (feats : List (String × ℝ)),
      pd ≠ [] → (∀ p ∈ pd, missingFields p = []) →
      extract_all_features pd = Except.ok feats →
      predict true proba pd =
        PredictResult.ok
          (if Config.PREDICTION_THRESHOLD < (proba feats).2 then 1 else 0)
          (decide (Config.PREDICTION_THRESHOLD < (proba feats).2))) ∧
    (∀ (proba : List (String × ℝ) → ℚ × ℚ) (pd : List RawPacket)
       (feats : List (String × ℝ)),
      pd ≠ [] → (∀ p ∈ pd, missingFields p = []) →
      extract_all_features pd = Except.ok feats →
      (proba feats).2 = 6 / 100 →
      predict true proba pd = PredictResult.ok 1 true) := by
  have core : ∀ (proba : List (String × ℝ) → ℚ × ℚ) (pd : List RawPacket)
      (feats : List (String × ℝ)),
      pd ≠ [] → (∀ p ∈ pd, missingFields p = []) →
      extract_all_features pd = Except.ok feats →
      predict true proba pd =
        PredictResult.ok
          (if Config.PREDICTION_THRESHOLD < (proba feats).2 then 1 else 0)
          (decide (Config.PREDICTION_THRESHOLD < (proba feats).2)) := by
    intro proba pd feats hne hvalid hok
    have hempty : pd.isEmpty = false := by
      cases pd
      · exact absurd rfl hne
      · rfl
    have hfind : pd.find? (fun q => !(missingFields q).isEmpty) = none :=
      List.find?_eq_none.mpr (fun q hq => by simp [hvalid q hq])
    simp [predict, hempty, hfind, hok]
  refine ⟨rfl, core, fun proba pd feats hne hvalid hok hp => ?_⟩
  rw [core proba pd feats hne hvalid hok, hp]
  norm_num [Config.PREDICTION_THRESHOLD]

/-- C9 witness: the hypotheses of `C9_threshold_decision` hold at a
concrete one-packet request with a classifier returning attack probability
0.06. -/
theorem C9_witness :
    predict true (fun _ => ((94 : ℚ) / 100, (6 : ℚ) / 100))
      [⟨some (some 0), some "a", some "x", some 1, some 9⟩] =
      PredictResult.ok 1 true := by
  have hok : extract_all_features
      [⟨some (some 0), some "a", some "x", some 1, some 9⟩] =
      Except.ok (mkFeatures [0] [] [0]) := by
    simp [extract_all_features, parse_packet_data, stepPacket, Except.map, pTime]
  exact C9_threshold_decision.2.2 _ _ (mkFeatures [0] [] [0])
    (by simp) (by decide) hok rfl

end IDS
